import Mathlib

set_option maxRecDepth 8192

/-!
Verification of the stalwart housekeeper and principal model excerpt.

The definitions below are a shallow embedding of:
  - crates/services/src/housekeeper/mod.rs   (scheduler, delay queue, purge dispatcher)
  - crates/directory/src/core/principal.rs   (Principal, PrincipalSet, JSON boundary,
                                              search-index delta)

Rust `Instant`s and `Duration`s are modelled as points / lengths on a discrete
`Nat` time line (seconds); `u32`/`u64`/`usize` values as `Nat`; fallible code
returns `Except String`.
-/

namespace Stalwart

/-! ### Housekeeper: actions and the delay queue (housekeeper/mod.rs) -/

/-- Embedding of `enum ActionClass` (housekeeper/mod.rs lines 32-39). -/
inductive ActionClass where
  | account
  | store (idx : Nat)
  | acme (providerId : String)
  | otelMetrics
  | calculateMetrics
deriving DecidableEq

/-- Embedding of the Rust `#[derive(PartialEq)]` equality on `ActionClass`:
structural comparison of variants and payloads. -/
def ActionClass.beqRust : ActionClass → ActionClass → Bool
  | .account, .account => true
  | .store i, .store j => i == j
  | .acme a, .acme b => a == b
  | .otelMetrics, .otelMetrics => true
  | .calculateMetrics, .calculateMetrics => true
  | _, _ => false

/-- Embedding of `struct Action` (housekeeper/mod.rs lines 26-30): a due
instant together with an action kind. -/
structure Action where
  due : Nat
  event : ActionClass
deriving DecidableEq

/-- Embedding of the Rust `#[derive(PartialEq)]` on `struct Action`: the
derived implementation compares every field, i.e. both `due` and `event`. -/
def Action.beqRust (a b : Action) : Bool :=
  a.due == b.due && ActionClass.beqRust a.event b.event

/-- Modelled from the spec: the constant `LONG_1D_SLUMBER` lives in the
`common` crate, which is not part of this excerpt.  The spec describes it as
the sentinel "long sleep" of at least 24 hours and its name says one day, so
it is modelled as one day in seconds. -/
def LONG_1D_SLUMBER : Nat := 86400

/-- Embedding of `struct Queue` (housekeeper/mod.rs lines 41-44).  The
`BinaryHeap` is modelled as the list of its elements; heap order is recovered
through `Queue.peekDue` below. -/
structure Queue where
  heap : List Action
deriving DecidableEq

/-- Embedding of `Queue::schedule` (mod.rs lines 530-540): pushes the new
action onto the heap (the telemetry event emitted there carries no state). -/
def Queue.schedule (q : Queue) (due : Nat) (event : ActionClass) : Queue :=
  ⟨{ due := due, event := event } :: q.heap⟩

/-- Embedding of `Queue::remove_action` (mod.rs lines 542-544):
`heap.retain(|e| &e.event != event)`. -/
def Queue.remove_action (q : Queue) (event : ActionClass) : Queue :=
  ⟨q.heap.filter (fun e => !ActionClass.beqRust e.event event)⟩

/-- The due instant of `BinaryHeap::peek` on the queue: `Ord for Action`
(mod.rs lines 566-570) compares `due` and reverses, so the heap maximum that
`peek` returns is an element with the least due instant. -/
def Queue.peekDue (q : Queue) : Option Nat :=
  match q.heap with
  | [] => none
  | a :: rest => some (rest.foldl (fun d e => min d e.due) a.due)

/-- Embedding of `Queue::wake_up_time` (mod.rs lines 546-551): the saturating
duration from `now` until the earliest due instant (`Nat` subtraction is
exactly `saturating_duration_since`), or `LONG_1D_SLUMBER` on an empty heap. -/
def Queue.wake_up_time (q : Queue) (now : Nat) : Nat :=
  match q.peekDue with
  | some d => d - now
  | none => LONG_1D_SLUMBER

/-- Embedding of `Queue::has_action` (mod.rs lines 561-563). -/
def Queue.has_action (q : Queue) (event : ActionClass) : Bool :=
  q.heap.any (fun e => ActionClass.beqRust e.event event)

/-! ### Housekeeper: purge dispatcher (`Server::purge`, mod.rs lines 418-527) -/

/-- Embedding of `PurgeStore` (the configured store of a purge schedule);
store handles are modelled as opaque numeric ids. -/
inductive PurgeStoreKind where
  | data (store : Nat)
  | blobs (store blobStore : Nat)
  | lookup (store : Nat)
deriving DecidableEq

/-- Embedding of `ipc::PurgeType`. -/
inductive PurgeType where
  | data (store : Nat)
  | blobs (store blobStore : Nat)
  | lookup (store : Nat) (pfx : Option (List Nat))
  | account (accountId : Option Nat)
deriving DecidableEq

/-- Embedding of the `match schedule.store` conversion inside the `Store`
branch of the scheduler loop (mod.rs lines 280-293). -/
def toPurgeType : PurgeStoreKind → PurgeType
  | .data s => .data s
  | .blobs s b => .blobs s b
  | .lookup s => .lookup s none

/-- Embedding of `u32::to_be_bytes` for a store index: the four bytes of the
index in big-endian order. -/
def u32_to_be_bytes (n : Nat) : List Nat :=
  [n / 2 ^ 24 % 256, n / 2 ^ 16 % 256, n / 2 ^ 8 % 256, n % 256]

/-- Embedding of the `let (lock_type, lock_name) = match &purge` block of
`Server::purge` (mod.rs lines 421-448): the lock type label and the optional
lock key (discriminator byte followed by the big-endian store index). -/
def lock_of (purge : PurgeType) (storeIdx : Nat) : String × Option (List Nat) :=
  match purge with
  | .data _ => ("data", some (0 :: u32_to_be_bytes storeIdx))
  | .blobs _ _ => ("blob", some (1 :: u32_to_be_bytes storeIdx))
  | .lookup _ none => ("in-memory", some (2 :: u32_to_be_bytes storeIdx))
  | .lookup _ (some _) => ("in-memory-prefix", none)
  | .account _ => ("account", none)

/-- Outcome of `lookup.try_lock(KV_LOCK_HOUSEKEEPER, lock_name, 3600)`. -/
inductive LockOutcome where
  | okTrue
  | okFalse
  | err
deriving DecidableEq

/-- The backend operations `Server::purge` can invoke (mod.rs lines 472-504). -/
inductive BackendCall where
  | purgeStore (store : Nat)
  | purgeBlobs (store blobStore : Nat)
  | purgeInMemoryStore (store : Nat)
  | keyDeletePrefix (store : Nat) (pfx : List Nat)
  | purgeAccount (accountId : Nat)
  | purgeAccounts
deriving DecidableEq

/-- Embedding of the `match purge` dispatch of `Server::purge`
(mod.rs lines 472-504). -/
def dispatchCall : PurgeType → BackendCall
  | .data s => .purgeStore s
  | .blobs s b => .purgeBlobs s b
  | .lookup s none => .purgeInMemoryStore s
  | .lookup s (some p) => .keyDeletePrefix s p
  | .account (some i) => .purgeAccount i
  | .account none => .purgeAccounts

/-- Backend calls made by one run of `Server::purge` (mod.rs lines 419-527),
as a function of the purge type, the store index and the `try_lock` outcome:
when a lock key was derived, `Ok(false)` and `Err(_)` both `return` before any
backend call; without a lock key no lock is attempted and the dispatch always
runs. -/
def purge_calls (purge : PurgeType) (storeIdx : Nat) (lock : LockOutcome) :
    List BackendCall :=
  match (lock_of purge storeIdx).2 with
  | some _ =>
      match lock with
      | .okTrue => [dispatchCall purge]
      | .okFalse => []
      | .err => []
  | none => [dispatchCall purge]

/-! ### Housekeeper: the scheduler's per-action firing (mod.rs lines 190-408) -/

/-- One configured purge schedule: the duration its CRON expression reports
until the next firing (`schedule.cron.time_to_next()`) and the store. -/
structure PurgeSchedule where
  cronNext : Nat
  store : PurgeStoreKind
deriving DecidableEq

/-- The slice of the server configuration the scheduler's firing branch
consults. -/
structure Config where
  purgeSchedules : List PurgeSchedule
  otelInterval : Option Nat
  accountPurgeNext : Nat
deriving DecidableEq

/-- Tasks the scheduler spawns while firing one action. -/
inductive Spawned where
  | purgeTask (p : PurgeType) (idx : Nat)
  | pushMetrics
  | calculateTask
  | acmeRenew (providerId : String)
deriving DecidableEq

/-- Embedding of the `match event.event` body of the scheduler loop
(mod.rs lines 193-406): given the configuration, the current instant and the
queue, firing one popped action yields the updated queue and the list of
spawned tasks.  Note the `CalculateMetrics` branch (lines 323-333) schedules
`ActionClass::OtelMetrics` at `now + 5 * 60`. -/
def handleAction (cfg : Config) (now : Nat) (q : Queue) :
    ActionClass → Queue × List Spawned
  | .acme pid => (q, [.acmeRenew pid])
  | .account =>
      (q.schedule (now + cfg.accountPurgeNext) .account,
        [.purgeTask (.account none) 0])
  | .store idx =>
      match cfg.purgeSchedules[idx]? with
      | some sch =>
          (q.schedule (now + sch.cronNext) (.store idx),
            [.purgeTask (toPurgeType sch.store) idx])
      | none => (q, [])
  | .otelMetrics =>
      match cfg.otelInterval with
      | some iv => (q.schedule (now + iv) .otelMetrics, [.pushMetrics])
      | none => (q, [])
  | .calculateMetrics =>
      (q.schedule (now + 5 * 60) .otelMetrics, [.calculateTask])

/-- An empty configuration: no purge schedules, no OTEL. -/
def cfg0 : Config := ⟨[], none, 0⟩

/-! ### Principal model (crates/directory/src/core/principal.rs) -/

/-- Embedding of `Type` (the principal type enum; `Type::parse` and
`Type::from_u8` are at principal.rs lines 853-922).  Renamed because `Type` is
reserved in Lean. -/
inductive PrincipalType where
  | individual
  | group
  | resource
  | location
  | other
  | list
  | tenant
  | role
  | domain
  | apiKey
  | oauthClient
deriving DecidableEq

/-- Embedding of `Type::parse` (principal.rs lines 886-901). -/
def PrincipalType.parse : String → Option PrincipalType
  | "individual" => some .individual
  | "group" => some .group
  | "resource" => some .resource
  | "location" => some .location
  | "list" => some .list
  | "tenant" => some .tenant
  | "superuser" => some .individual
  | "role" => some .role
  | "domain" => some .domain
  | "apiKey" => some .apiKey
  | "oauthClient" => some .oauthClient
  | _ => none

/-- Embedding of `PermissionGrant`; the `Permission` enum is a closed variant
set compared only for equality, modelled as a numeric id. -/
structure PermissionGrant where
  permission : Nat
  grant : Bool
deriving DecidableEq

/-- Embedding of `PrincipalData`, the polymorphic entry of `Principal::data`
(variants per the accessors at principal.rs lines 58-188 and spec section 3).
`PrincipalQuota` entries carry a list of per-type quotas. -/
inductive PrincipalData where
  | memberOf (l : List Nat)
  | roles (l : List Nat)
  | permissions (l : List PermissionGrant)
  | urls (l : List String)
  | lists (l : List Nat)
  | picture (s : String)
  | principalQuota (l : List (PrincipalType × Nat))
deriving DecidableEq

/-- The discriminator of a `PrincipalData` entry. -/
def PrincipalData.disc : PrincipalData → Nat
  | .memberOf _ => 0
  | .roles _ => 1
  | .permissions _ => 2
  | .urls _ => 3
  | .lists _ => 4
  | .picture _ => 5
  | .principalQuota _ => 6

/-- The "at most one entry per `PrincipalData` discriminator" invariant on a
data list: the discriminators are pairwise distinct. -/
def dataInv (l : List PrincipalData) : Prop :=
  (l.map PrincipalData.disc).Nodup

instance (l : List PrincipalData) : Decidable (dataInv l) :=
  inferInstanceAs (Decidable ((l.map PrincipalData.disc).Nodup))

/-- Embedding of `Principal` (fields per `Principal::new`,
principal.rs lines 27-40). -/
structure Principal where
  id : Nat
  typ : PrincipalType
  name : String
  description : Option String
  secrets : List String
  emails : List String
  quota : Option Nat
  tenant : Option Nat
  data : List PrincipalData
deriving DecidableEq

/-- Replace the list inside the first `Permissions` entry of a data list, or
report `none` when no `Permissions` entry exists.  This is the
`self.data.iter_mut().find_map(...)` probe shared by the permission mutators
(principal.rs lines 190-253). -/
def mapFirstPerms (f : List PermissionGrant → List PermissionGrant) :
    List PrincipalData → Option (List PrincipalData)
  | [] => none
  | .permissions l :: rest => some (.permissions (f l) :: rest)
  | d :: rest => (mapFirstPerms f rest).map (d :: ·)

/-- The `permissions.iter_mut().find(...)` upsert of `Principal::add_permission`
(principal.rs lines 198-202): overwrite the grant of the first entry with this
permission, or push a new entry. -/
def upsertGrant (permission : Nat) (grant : Bool) :
    List PermissionGrant → List PermissionGrant
  | [] => [{ permission := permission, grant := grant }]
  | g :: gs =>
      if g.permission = permission then
        { permission := permission, grant := grant } :: gs
      else
        g :: upsertGrant permission grant gs

/-- Embedding of `Principal::add_permission` (principal.rs lines 190-210). -/
def Principal.add_permission (p : Principal) (permission : Nat) (grant : Bool) :
    Principal :=
  match mapFirstPerms (upsertGrant permission grant) p.data with
  | some d => { p with data := d }
  | none =>
      { p with
        data := p.data ++ [.permissions [{ permission := permission, grant := grant }]] }

/-- Embedding of `Principal::add_permissions` (principal.rs lines 212-224):
extends the first `Permissions` entry without deduplicating, or pushes the
collected grants. -/
def Principal.add_permissions (p : Principal) (gs : List PermissionGrant) :
    Principal :=
  match mapFirstPerms (· ++ gs) p.data with
  | some d => { p with data := d }
  | none => { p with data := p.data ++ [.permissions gs] }

/-- Embedding of `Vec::swap_remove`: replace position `i` with the last
element and drop the last element. -/
def swapRemove (l : List PermissionGrant) (i : Nat) : List PermissionGrant :=
  match l.getLast? with
  | none => l
  | some last => (l.set i last).dropLast

/-- Embedding of `Principal::remove_permission` (principal.rs lines 226-241):
swap-removes the first entry matching both fields of the first `Permissions`
entry. -/
def Principal.remove_permission (p : Principal) (permission : Nat) (grant : Bool) :
    Principal :=
  match
    mapFirstPerms
      (fun gs =>
        match gs.findIdx? (fun g => g.permission == permission && g.grant == grant) with
        | some i => swapRemove gs i
        | none => gs)
      p.data
  with
  | some d => { p with data := d }
  | none => p

/-- Embedding of `Principal::remove_permissions` (principal.rs lines 243-253):
retains only entries whose grant differs from the argument. -/
def Principal.remove_permissions (p : Principal) (grant : Bool) : Principal :=
  match mapFirstPerms (List.filter (fun g => g.grant != grant)) p.data with
  | some d => { p with data := d }
  | none => p

/-- The first `MemberOf` payload of a data list (`member_of_mut`). -/
def firstMemberOf : List PrincipalData → Option (List Nat)
  | [] => none
  | .memberOf l :: _ => some l
  | _ :: rest => firstMemberOf rest

/-- The first `Roles` payload of a data list (`roles_mut` / `roles`). -/
def firstRoles : List PrincipalData → Option (List Nat)
  | [] => none
  | .roles l :: _ => some l
  | _ :: rest => firstRoles rest

/-- Field names of `PrincipalUpdate::set` entries emitted by
`update_external`. -/
inductive PrincipalField where
  | name
  | typ
  | quota
  | usedQuota
  | description
  | secrets
  | emails
  | memberOf
  | members
  | roles
  | lists
  | enabledPermissions
  | disabledPermissions
  | urls
  | externalMembers
  | tenant
  | picture
  | locale
deriving DecidableEq

/-- Embedding of `PrincipalValue` (the tagged scalar/list value of the
`PrincipalSet` field map). -/
inductive PrincipalValue where
  | string (s : String)
  | stringList (l : List String)
  | integer (n : Nat)
  | integerList (l : List Nat)
deriving DecidableEq

/-- Embedding of a `PrincipalUpdate::set` entry. -/
structure PrincipalUpdate where
  field : PrincipalField
  value : PrincipalValue
deriving DecidableEq

/-- Embedding of `Principal::update_external` (principal.rs lines 255-303):
merges an external principal into the local one and returns the updated
principal together with the emitted update list.  The external `member_of`
entry is pushed unconditionally when non-empty; roles are pushed only when the
local `roles()` view is empty; description, secrets, emails and quota are
overwritten when the external value is non-empty/present and differs. -/
def Principal.update_external (p : Principal) (external : Principal) :
    Principal × List PrincipalUpdate :=
  let d1 :=
    match firstMemberOf external.data with
    | some l => if l.isEmpty then p.data else p.data ++ [.memberOf l]
    | none => p.data
  let d2 :=
    match firstRoles external.data with
    | some l =>
        if l.isEmpty then d1
        else if ((firstRoles d1).getD []).isEmpty then d1 ++ [.roles l]
        else d1
    | none => d1
  let descStep :
      Option String × List PrincipalUpdate :=
    match external.description with
    | some v =>
        if !v.isEmpty && p.description ≠ some v then
          (some v, [{ field := .description, value := .string v }])
        else (p.description, [])
    | none => (p.description, [])
  let secretsStep :
      List String × List PrincipalUpdate :=
    if !external.secrets.isEmpty && external.secrets ≠ p.secrets then
      (external.secrets, [{ field := .secrets, value := .stringList external.secrets }])
    else (p.secrets, [])
  let emailsStep :
      List String × List PrincipalUpdate :=
    if !external.emails.isEmpty && external.emails ≠ p.emails then
      (external.emails, [{ field := .emails, value := .stringList external.emails }])
    else (p.emails, [])
  let quotaStep :
      Option Nat × List PrincipalUpdate :=
    match external.quota with
    | some qv =>
        if p.quota ≠ some qv then
          (some qv, [{ field := .quota, value := .integer qv }])
        else (p.quota, [])
    | none => (p.quota, [])
  ({ p with
      data := d2
      description := descStep.1
      secrets := secretsStep.1
      emails := emailsStep.1
      quota := quotaStep.1 },
    descStep.2 ++ secretsStep.2 ++ emailsStep.2 ++ quotaStep.2)

/-! ### PrincipalSet: the dynamic field container (principal.rs lines 320-666) -/

/-- Embedding of `PrincipalSet` (the JSON-boundary view): id, type and a
field map.  The map is modelled as an association list with unique keys
(lookup by first match, insertion replaces an existing key in place). -/
structure PrincipalSet where
  id : Nat
  typ : PrincipalType
  fields : List (PrincipalField × PrincipalValue)
deriving DecidableEq

/-- Map lookup: the value stored under a field key. -/
def PrincipalSet.getField (ps : PrincipalSet) (key : PrincipalField) :
    Option PrincipalValue :=
  (ps.fields.find? (fun kv => kv.1 == key)).map (·.2)

/-- Map insertion: replace the entry for `key` in place, or append a new one.
This is the semantics of inserting into the field map. -/
def insertField (fs : List (PrincipalField × PrincipalValue))
    (key : PrincipalField) (v : PrincipalValue) :
    List (PrincipalField × PrincipalValue) :=
  if fs.any (fun kv => kv.1 == key) then
    fs.map (fun kv => if kv.1 == key then (key, v) else kv)
  else
    fs ++ [(key, v)]

/-- Map removal of a key. -/
def removeField (fs : List (PrincipalField × PrincipalValue))
    (key : PrincipalField) : List (PrincipalField × PrincipalValue) :=
  fs.filter (fun kv => kv.1 != key)

/-- Embedding of `PrincipalSet::has_field` (principal.rs lines 586-588). -/
def PrincipalSet.has_field (ps : PrincipalSet) (key : PrincipalField) : Bool :=
  ps.fields.any (fun kv => kv.1 == key)

/-- Embedding of `PrincipalSet::retain_str` (principal.rs lines 623-643):
on a `String` value, drop the whole field when the predicate rejects it; on a
`StringList`, retain matching elements and drop the field when the list
empties; integer-shaped values fall into the `_ => {}` arm and are left
untouched. -/
def PrincipalSet.retain_str (ps : PrincipalSet) (key : PrincipalField)
    (f : String → Bool) : PrincipalSet :=
  match ps.getField key with
  | some (.string s) =>
      if f s then ps else { ps with fields := removeField ps.fields key }
  | some (.stringList l) =>
      let l' := l.filter f
      if l'.isEmpty then { ps with fields := removeField ps.fields key }
      else { ps with fields := insertField ps.fields key (.stringList l') }
  | _ => ps

/-- Embedding of `PrincipalSet::retain_int` (principal.rs lines 645-665):
the mirror image of `retain_str`, with string-shaped values left untouched. -/
def PrincipalSet.retain_int (ps : PrincipalSet) (key : PrincipalField)
    (f : Nat → Bool) : PrincipalSet :=
  match ps.getField key with
  | some (.integer i) =>
      if f i then ps else { ps with fields := removeField ps.fields key }
  | some (.integerList l) =>
      let l' := l.filter f
      if l'.isEmpty then { ps with fields := removeField ps.fields key }
      else { ps with fields := insertField ps.fields key (.integerList l') }
  | _ => ps

/-! ### JSON boundary (principal.rs lines 955-1264)

JSON documents are modelled by the `Json` inductive below (booleans, floats
and negative numbers are omitted: the visitors in scope implement none of
`visit_bool`/`visit_i64`/`visit_f64`, so such values always fail with a serde
type error, which the omission makes unrepresentable rather than wrong).
Strings are measured in UTF-8 bytes, as Rust's `str::len` does. -/

inductive Json where
  | null
  | num (n : Nat)
  | str (s : String)
  | arr (elems : List Json)
  | obj (members : List (String × Json))

/-- Embedding of `MAX_STRING_LEN` (principal.rs line 955). -/
def MAX_STRING_LEN : Nat := 512

/-- Embedding of `StringOrU64` (principal.rs lines 1152-1156). -/
inductive StringOrU64 where
  | string (s : String)
  | u64 (n : Nat)
deriving DecidableEq

/-- Embedding of `StringOrMany` (principal.rs lines 1206-1210). -/
inductive StringOrMany where
  | one (s : String)
  | many (l : List String)
deriving DecidableEq

/-- Deserializing a plain Rust `String` from a JSON value: succeeds on any
JSON string (no length limit), fails with a type error otherwise. -/
def deString : Json → Except String String
  | .str s => .ok s
  | _ => .error "invalid type"

/-- Embedding of `StringOrU64::deserialize` (principal.rs lines 1158-1204):
strings are length-checked against `MAX_STRING_LEN`, unsigned integers are
accepted, anything else fails with a type error. -/
def deStringOrU64 : Json → Except String StringOrU64
  | .str s =>
      if s.utf8ByteSize ≤ MAX_STRING_LEN then .ok (.string s)
      else .error "string too long"
  | .num n => .ok (.u64 n)
  | _ => .error "invalid type"

/-- The element loop of `StringOrMany::visit_seq` (principal.rs lines
1248-1259): each element is deserialized as a plain `String` with no length
check. -/
def seqString : List Json → Except String (List String)
  | [] => .ok []
  | j :: js =>
      match deString j with
      | .error e => .error e
      | .ok s =>
          match seqString js with
          | .error e => .error e
          | .ok ss => .ok (s :: ss)

/-- Embedding of `StringOrMany::deserialize` (principal.rs lines 1212-1264):
a scalar string is length-checked; a sequence collects its elements as plain
strings without any length check. -/
def deStringOrMany : Json → Except String StringOrMany
  | .str s =>
      if s.utf8ByteSize ≤ MAX_STRING_LEN then .ok (.one s)
      else .error "string too long"
  | .arr xs =>
      match seqString xs with
      | .error e => .error e
      | .ok ss => .ok (.many ss)
  | _ => .error "invalid type"

/-- The element loop of `PrincipalValue`'s `visit_seq` (principal.rs lines
1014-1032): elements are parsed as `StringOrU64`, stopping at the first
error. -/
def seqStringOrU64 : List Json → Except String (List StringOrU64)
  | [] => .ok []
  | j :: js =>
      match deStringOrU64 j with
      | .error e => .error e
      | .ok v =>
          match seqStringOrU64 js with
          | .error e => .error e
          | .ok vs => .ok (v :: vs)

/-- The string components collected by the `visit_seq` loop, in order. -/
def strParts (vs : List StringOrU64) : List String :=
  vs.filterMap (fun v => match v with | .string s => some s | .u64 _ => none)

/-- The integer components collected by the `visit_seq` loop, in order. -/
def intParts (vs : List StringOrU64) : List Nat :=
  vs.filterMap (fun v => match v with | .u64 n => some n | .string _ => none)

/-- Embedding of `PrincipalValue::deserialize` (principal.rs lines 957-1044):
numbers become `Integer`, length-checked strings become `String`, and a
sequence is split into string and integer parts — all-strings gives a
`StringList`, all-integers an `IntegerList`, an empty sequence an empty
`StringList`, and a mixture fails with "invalid principal value". -/
def dePrincipalValue : Json → Except String PrincipalValue
  | .num n => .ok (.integer n)
  | .str s =>
      if s.utf8ByteSize ≤ MAX_STRING_LEN then .ok (.string s)
      else .error "string too long"
  | .arr xs =>
      match seqStringOrU64 xs with
      | .error e => .error e
      | .ok vs =>
          match (intParts vs).isEmpty, (strParts vs).isEmpty with
          | true, false => .ok (.stringList (strParts vs))
          | false, true => .ok (.integerList (intParts vs))
          | true, true => .ok (.stringList (strParts vs))
          | false, false => .error "invalid principal value"
  | _ => .error "invalid type"

/-- Modelled from the spec: `PrincipalField::try_parse` lives in
`backend/internal`, which is not part of this excerpt.  Per the spec's JSON
wire format the keys are the camel-cased field names used by the serializer
(`key.as_str()`), with unknown keys rejected by returning `none`. -/
def PrincipalField.try_parse : String → Option PrincipalField
  | "name" => some .name
  | "type" => some .typ
  | "quota" => some .quota
  | "usedQuota" => some .usedQuota
  | "description" => some .description
  | "secrets" => some .secrets
  | "emails" => some .emails
  | "memberOf" => some .memberOf
  | "members" => some .members
  | "roles" => some .roles
  | "lists" => some .lists
  | "enabledPermissions" => some .enabledPermissions
  | "disabledPermissions" => some .disabledPermissions
  | "urls" => some .urls
  | "externalMembers" => some .externalMembers
  | "tenant" => some .tenant
  | "picture" => some .picture
  | "locale" => some .locale
  | _ => none

/-- Processing of one `(key, value)` pair by `PrincipalSet`'s `visit_map`
(principal.rs lines 1062-1145): parse the key (an `id` key falls back to the
ignored `UsedQuota`), then dispatch on the field — `Name` requires a
length-checked string; `Description`/`Tenant`/`Picture`/`Locale` accept an
optional length-checked string (a JSON null skips the field); `Type` parses
the principal type; `Quota` takes a full `PrincipalValue`; the list-valued
fields take a `StringOrMany` (an empty array skips the field); `UsedQuota`
consumes and ignores its value. -/
def deFieldStep (ps : PrincipalSet) (k : String) (v : Json) :
    Except String PrincipalSet :=
  match (PrincipalField.try_parse k).orElse
      (fun _ => if k == "id" then some .usedQuota else none) with
  | none => .error ("invalid principal field: " ++ k)
  | some f =>
      match f with
      | .name =>
          match v with
          | .str s =>
              if s.utf8ByteSize ≤ MAX_STRING_LEN then
                .ok { ps with fields := insertField ps.fields .name (.string s) }
              else .error "string too long"
          | _ => .error "invalid type"
      | .description | .tenant | .picture | .locale =>
          match v with
          | .null => .ok ps
          | .str s =>
              if s.utf8ByteSize ≤ MAX_STRING_LEN then
                .ok { ps with fields := insertField ps.fields f (.string s) }
              else .error "string too long"
          | _ => .error "invalid type"
      | .typ =>
          match v with
          | .str s =>
              match PrincipalType.parse s with
              | some t => .ok { ps with typ := t }
              | none => .error "invalid principal type"
          | _ => .error "invalid type"
      | .quota =>
          match dePrincipalValue v with
          | .error e => .error e
          | .ok pv => .ok { ps with fields := insertField ps.fields .quota pv }
      | .usedQuota => .ok ps
      | .secrets | .emails | .memberOf | .members | .roles | .lists
      | .enabledPermissions | .disabledPermissions | .urls | .externalMembers =>
          match deStringOrMany v with
          | .error e => .error e
          | .ok (.one s) =>
              .ok { ps with fields := insertField ps.fields f (.stringList [s]) }
          | .ok (.many l) =>
              if l.isEmpty then .ok ps
              else .ok { ps with fields := insertField ps.fields f (.stringList l) }

/-- The key/value loop of `PrincipalSet`'s `visit_map`. -/
def dePrincipalSetLoop (ps : PrincipalSet) :
    List (String × Json) → Except String PrincipalSet
  | [] => .ok ps
  | (k, v) :: rest =>
      match deFieldStep ps k v with
      | .error e => .error e
      | .ok ps' => dePrincipalSetLoop ps' rest

/-- Embedding of `PrincipalSet::deserialize` (principal.rs lines 1047-1150):
deserializes a JSON object through the map visitor, starting from a default
principal set (id 0, individual type, no fields). -/
def dePrincipalSet : Json → Except String PrincipalSet
  | .obj kvs => dePrincipalSetLoop ⟨0, .individual, []⟩ kvs
  | _ => .error "invalid type"

/-! ### Search-index delta (`build_search_index`, principal.rs lines 806-851) -/

/-- Modelled from the spec: `MAX_TOKEN_LENGTH` lives in the `store` backend,
which is not part of this excerpt; the spec says only that the tokenizer has a
fixed maximum token length. -/
def MAX_TOKEN_LENGTH : Nat := 25

/-- Modelled from the spec: the `WordTokenizer` of the `nlp` crate is not part
of this excerpt.  Per the spec it is "a word tokenizer with a fixed maximum
token length": the text is split into maximal alphanumeric runs and tokens
longer than the maximum are not produced. -/
def wordTokens (s : String) : List String :=
  (s.split (fun c => !c.isAlphanum)).filter
    (fun w => !w.isEmpty && w.length ≤ MAX_TOKEN_LENGTH)

/-- The tokenized word set of a principal, drawn from `name`, `description`
and each `emails` entry (the `AHashSet` is modelled as a deduplicated list). -/
def principal_words (p : Principal) : List String :=
  ((([p.name] ++
      (match p.description with | some d => [d] | none => []) ++
      p.emails).map wordTokens).flatten).dedup

/-- An index key: the word bytes together with the principal id. -/
structure IndexKey where
  word : String
  pid : Nat
deriving DecidableEq

/-- A batch entry emitted by `build_search_index`: `batch.set` or
`batch.clear` of an index key. -/
inductive IndexOp where
  | setKey (k : IndexKey)
  | clearKey (k : IndexKey)
deriving DecidableEq

/-- Embedding of `build_search_index` (principal.rs lines 806-851): emit a
`set` for every word of `next` missing from `current`, then a `clear` for
every word of `current` missing from `next`. -/
def build_search_index (pid : Nat) (current next : Option Principal) :
    List IndexOp :=
  let cw := match current with | some p => principal_words p | none => []
  let nw := match next with | some p => principal_words p | none => []
  (nw.filter (fun w => !cw.contains w)).map (fun w => .setKey ⟨w, pid⟩) ++
    (cw.filter (fun w => !nw.contains w)).map (fun w => .clearKey ⟨w, pid⟩)

/-- Applying one batch entry to an index, viewed as the set of keys that have
a value: `set` writes the key's value (making it present), `clear` deletes
the key. -/
def applyOp (idx : List IndexKey) : IndexOp → List IndexKey
  | .setKey k => if idx.contains k then idx else idx ++ [k]
  | .clearKey k => idx.filter (fun k' => k' != k)

/-- Applying a batch front to back. -/
def applyOps : List IndexKey → List IndexOp → List IndexKey
  | idx, [] => idx
  | idx, op :: ops => applyOps (applyOp idx op) ops

/-- Shape test: the stored value is integer-shaped (`Integer`/`IntegerList`). -/
def intShaped : Option PrincipalValue → Bool
  | some (.integer _) => true
  | some (.integerList _) => true
  | _ => false

/-- Shape test: the stored value is string-shaped (`String`/`StringList`). -/
def strShaped : Option PrincipalValue → Bool
  | some (.string _) => true
  | some (.stringList _) => true
  | _ => false

/-- A JSON value `StringOrU64` accepts without error: a string within the
length limit or an unsigned integer. -/
def elemOk : Json → Bool
  | .str s => s.utf8ByteSize ≤ MAX_STRING_LEN
  | .num _ => true
  | _ => false

/-- Is the JSON value a string? -/
def isStrJson : Json → Bool
  | .str _ => true
  | _ => false

/-- Is the JSON value an unsigned integer? -/
def isNumJson : Json → Bool
  | .num _ => true
  | _ => false

/-- A 513-byte ASCII string: one byte over `MAX_STRING_LEN`. -/
def longStr : String := String.mk (List.replicate 513 'a')

/-! ## Theorems -/

/-! ### Helper lemmas -/

lemma actionClass_beqRust_eq (a b : ActionClass) :
    ActionClass.beqRust a b = true ↔ a = b := by
  cases a <;> cases b <;> simp [ActionClass.beqRust]

lemma getField_none_has_field (ps : PrincipalSet) (key : PrincipalField)
    (h : ps.getField key = none) : ps.has_field key = false := by
  rcases hf : ps.fields.find? (fun kv => kv.1 == key) with _ | kv
  · rw [List.find?_eq_none] at hf
    simp only [PrincipalSet.has_field, List.any_eq_false]
    intro x hx
    exact fun hbe => (hf x hx) hbe
  · simp [PrincipalSet.getField, hf] at h

lemma getField_some_has_field (ps : PrincipalSet) (key : PrincipalField)
    (v : PrincipalValue) (h : ps.getField key = some v) :
    ps.has_field key = true := by
  rcases hf : ps.fields.find? (fun kv => kv.1 == key) with _ | kv
  · simp [PrincipalSet.getField, hf] at h
  · have hmem := List.mem_of_find?_eq_some hf
    have hp := List.find?_some hf
    simp only [PrincipalSet.has_field, List.any_eq_true]
    exact ⟨kv, hmem, hp⟩

lemma removeField_any (fs : List (PrincipalField × PrincipalValue))
    (key : PrincipalField) :
    (removeField fs key).any (fun kv => kv.1 == key) = false := by
  simp only [removeField, List.any_eq_false]
  intro x hx
  have := (List.mem_filter.mp hx).2
  simp only [bne_iff_ne, ne_eq] at this
  simp [this]

/-! ### C5: equality of heap `Action`s -/

/-- C5 counterexample: two actions with the same kind (`Account`) but
different due instants are not equal under the derived `PartialEq` on
`Action`, so "a1 equals a2 if and only if their action-kinds are equal" fails
at this input. -/
theorem c5_counterexample :
    ¬ (Action.beqRust ⟨0, .account⟩ ⟨1, .account⟩ = true ↔
        (Action.mk 0 .account).event = (Action.mk 1 .account).event) := by
  decide

/-- C5 (amended): the derived equality on heap elements of the `Action` type
compares both fields — `a1` equals `a2` if and only if their due instants and
their action-kinds are equal; the due instant does participate in equality. -/
theorem c5_amended (a b : Action) :
    Action.beqRust a b = true ↔ a.due = b.due ∧ a.event = b.event := by
  simp [Action.beqRust, actionClass_beqRust_eq]

/-! ### C7: purge dispatcher lock keys and lock-skip behavior -/

/-- C7: for every `PurgeType` the dispatcher derives the lock key as one
discriminator byte (`0` for `Data`, `1` for `Blobs`, `2` for `Lookup` without
prefix) followed by the big-endian 4-byte store index, derives no lock key for
`Lookup` with a prefix or `Account` purges, and when `try_lock` returns
`false` or errors it returns before any backend purge call (while purges that
take no lock proceed regardless of the lock outcome). -/
theorem c7_purge_lock_key_and_skip (s b idx : Nat) (pfx : List Nat)
    (aid : Option Nat) (p : PurgeType) :
    (lock_of (.data s) idx).2 = some (0 :: u32_to_be_bytes idx)
    ∧ (lock_of (.blobs s b) idx).2 = some (1 :: u32_to_be_bytes idx)
    ∧ (lock_of (.lookup s none) idx).2 = some (2 :: u32_to_be_bytes idx)
    ∧ (lock_of (.lookup s (some pfx)) idx).2 = none
    ∧ (lock_of (.account aid) idx).2 = none
    ∧ purge_calls p idx .okFalse =
        (if ((lock_of p idx).2).isSome then [] else purge_calls p idx .okTrue)
    ∧ purge_calls p idx .err =
        (if ((lock_of p idx).2).isSome then [] else purge_calls p idx .okTrue) := by
  refine ⟨rfl, rfl, rfl, rfl, rfl, ?_, ?_⟩ <;>
    rcases p with s' | ⟨s', b'⟩ | ⟨s', _ | pf⟩ | aid' <;>
      simp [purge_calls, lock_of]

/-! ### C8: `wake_up_time` -/

/-- C8: `wake_up_time()` returns the saturating duration from now until the
earliest due instant — adding `now` back yields `max due now`, so the result
is zero whenever the earliest due instant has passed and is never negative (it
lives in `Nat`) — and on an empty queue it returns the `LONG_1D_SLUMBER`
sentinel, which is at least 24 hours; being a total function it never
panics. -/
theorem c8_wake_up_time (q : Queue) (now : Nat) :
    (q.heap = [] → q.wake_up_time now = LONG_1D_SLUMBER)
    ∧ (∀ d, q.peekDue = some d → q.wake_up_time now + now = max d now)
    ∧ 24 * 3600 ≤ LONG_1D_SLUMBER := by
  refine ⟨?_, ?_, by decide⟩
  · intro h
    simp [Queue.wake_up_time, Queue.peekDue, h]
  · intro d h
    simp only [Queue.wake_up_time, h]
    omega

/-- C8 witness: on the empty queue the sentinel is returned; on a queue whose
earliest action is due at instant 3 observed at instant 10, the wake-up time
saturates per `max`. -/
theorem c8_wake_up_time_witness :
    (Queue.mk []).wake_up_time 7 = LONG_1D_SLUMBER
    ∧ (Queue.mk [⟨3, .account⟩]).wake_up_time 10 + 10 = max 3 10 :=
  ⟨(c8_wake_up_time ⟨[]⟩ 7).1 rfl,
    (c8_wake_up_time ⟨[⟨3, .account⟩]⟩ 10).2.1 3 rfl⟩

/-! ### C9: firing `Store(i)` with no schedule at index `i` -/

/-- C9: if a `Store(i)` action fires while the configuration has no purge
schedule at index `i`, the firing spawns no purge task and re-enqueues
nothing — the queue is returned unchanged, so the popped action is dropped
permanently. -/
theorem c9_store_action_dropped (cfg : Config) (now : Nat) (q : Queue) (i : Nat)
    (h : cfg.purgeSchedules[i]? = none) :
    handleAction cfg now q (.store i) = (q, []) := by
  simp [handleAction, h]

/-- C9 witness: firing `Store(0)` under the empty configuration. -/
theorem c9_store_action_dropped_witness :
    cfg0.purgeSchedules[0]? = none
    ∧ handleAction cfg0 0 ⟨[]⟩ (.store 0) = (⟨[]⟩, []) :=
  ⟨rfl, c9_store_action_dropped cfg0 0 ⟨[]⟩ 0 rfl⟩

/-! ### C1: what a `CalculateMetrics` firing re-enqueues -/

/-- C1 (code bug evidence): firing `CalculateMetrics` enqueues
`ActionClass::OtelMetrics` due at `now + 5 * 60` — not `CalculateMetrics` —
so after the firing no `CalculateMetrics` action is queued and the claimed
five-minute recurrence of `CalculateMetrics` does not happen. -/
theorem c1_calculate_metrics_reschedules_otel :
    (handleAction cfg0 0 ⟨[]⟩ .calculateMetrics).1.heap = [⟨300, .otelMetrics⟩]
    ∧ (handleAction cfg0 0 ⟨[]⟩ .calculateMetrics).1.has_action .calculateMetrics
        = false := by
  exact ⟨rfl, rfl⟩

/-! ### C4: `retain_*` with an all-rejecting predicate -/

/-- C4 counterexample: on a field currently holding an `Integer`,
`retain_str` with the all-rejecting predicate leaves the field in place, so
`has_field` stays `true` and the claim fails for the `Integer` value shape. -/
theorem c4_counterexample :
    (PrincipalSet.retain_str ⟨0, .individual, [(.quota, .integer 1)]⟩ .quota
        (fun _ => false)).has_field .quota = true := by
  decide

/-- C4 (amended): `retain_str` with an all-rejecting predicate removes the
field exactly when its current value is absent or string-shaped — after the
call `has_field` equals the integer-shapedness of the prior value — and
`retain_int` behaves symmetrically, leaving string-shaped values untouched. -/
theorem c4_amended (ps : PrincipalSet) (key : PrincipalField) :
    (PrincipalSet.retain_str ps key (fun _ => false)).has_field key
        = intShaped (ps.getField key)
    ∧ (PrincipalSet.retain_int ps key (fun _ => false)).has_field key
        = strShaped (ps.getField key) := by
  constructor
  · rcases h : ps.getField key with _ | v
    · simp [PrincipalSet.retain_str, h, intShaped, getField_none_has_field ps key h]
    · cases v with
      | string s =>
          simp [PrincipalSet.retain_str, h, intShaped, PrincipalSet.has_field,
            removeField_any]
      | stringList l =>
          simp [PrincipalSet.retain_str, h, intShaped, PrincipalSet.has_field,
            removeField_any]
      | integer n =>
          simp [PrincipalSet.retain_str, h, intShaped,
            getField_some_has_field ps key _ h]
      | integerList l =>
          simp [PrincipalSet.retain_str, h, intShaped,
            getField_some_has_field ps key _ h]
  · rcases h : ps.getField key with _ | v
    · simp [PrincipalSet.retain_int, h, strShaped, getField_none_has_field ps key h]
    · cases v with
      | integer n =>
          simp [PrincipalSet.retain_int, h, strShaped, PrincipalSet.has_field,
            removeField_any]
      | integerList l =>
          simp [PrincipalSet.retain_int, h, strShaped, PrincipalSet.has_field,
            removeField_any]
      | string s =>
          simp [PrincipalSet.retain_int, h, strShaped,
            getField_some_has_field ps key _ h]
      | stringList l =>
          simp [PrincipalSet.retain_int, h, strShaped,
            getField_some_has_field ps key _ h]

/-! ### C3: the one-entry-per-discriminator invariant -/

lemma mapFirstPerms_disc (f : List PermissionGrant → List PermissionGrant)
    (l : List PrincipalData) :
    ∀ l', mapFirstPerms f l = some l' →
      l'.map PrincipalData.disc = l.map PrincipalData.disc := by
  induction l with
  | nil => simp [mapFirstPerms]
  | cons d rest ih =>
    intro l' h
    cases d <;>
      simp only [mapFirstPerms, Option.map_eq_some', Option.some_inj] at h <;>
      first
        | (obtain ⟨r', hr, rfl⟩ := h
           simp [PrincipalData.disc, ih r' hr])
        | (subst h
           simp [PrincipalData.disc])

lemma mapFirstPerms_none (f : List PermissionGrant → List PermissionGrant)
    (l : List PrincipalData) (h : mapFirstPerms f l = none) :
    (2 : Nat) ∉ l.map PrincipalData.disc := by
  induction l with
  | nil => simp
  | cons d rest ih =>
    cases d <;> simp only [mapFirstPerms, Option.map_eq_none'] at h <;>
      simp_all [PrincipalData.disc]

lemma firstMemberOf_none (l : List PrincipalData) (h : firstMemberOf l = none) :
    (0 : Nat) ∉ l.map PrincipalData.disc := by
  induction l with
  | nil => simp
  | cons d rest ih =>
    cases d <;> simp only [firstMemberOf] at h <;>
      simp_all [PrincipalData.disc]

lemma firstRoles_none (l : List PrincipalData) (h : firstRoles l = none) :
    (1 : Nat) ∉ l.map PrincipalData.disc := by
  induction l with
  | nil => simp
  | cons d rest ih =>
    cases d <;> simp only [firstRoles] at h <;>
      simp_all [PrincipalData.disc]

lemma mapFirstPerms_dataInv (f : List PermissionGrant → List PermissionGrant)
    (p : Principal) (hp : dataInv p.data) (body : List PrincipalData → Principal)
    (hbody : ∀ d, (body d).data = d) :
    dataInv (match mapFirstPerms f p.data with
      | some d => body d
      | none => p).data := by
  rcases h : mapFirstPerms f p.data with _ | d
  · exact hp
  · simp only [hbody]
    show (d.map PrincipalData.disc).Nodup
    rw [mapFirstPerms_disc f p.data d h]
    exact hp

/-- C3 counterexample: two principals, each satisfying the invariant, for
which `update_external` pushes a second `MemberOf` entry, leaving the local
data list with two entries of the `MemberOf` discriminator. -/
theorem c3_counterexample :
    dataInv (Principal.mk 0 .individual "" none [] [] none none
        [.memberOf [1]]).data
    ∧ dataInv (Principal.mk 1 .individual "" none [] [] none none
        [.memberOf [2]]).data
    ∧ ¬ dataInv ((Principal.mk 0 .individual "" none [] [] none none
          [.memberOf [1]]).update_external
        (Principal.mk 1 .individual "" none [] [] none none
          [.memberOf [2]])).1.data := by
  decide

/-- C3 (amended): for every `Principal` whose data list has at most one entry
per discriminator, the permission operations (`add_permission`,
`add_permissions`, `remove_permission`, `remove_permissions`) always preserve
that invariant; `update_external` preserves it provided the local data list
holds no `MemberOf` and no `Roles` entry (the merge pushes fresh entries of
those two kinds without probing for existing ones). -/
theorem c3_amended (p : Principal) (hp : dataInv p.data) :
    (∀ perm grant, dataInv (p.add_permission perm grant).data)
    ∧ (∀ gs, dataInv (p.add_permissions gs).data)
    ∧ (∀ perm grant, dataInv (p.remove_permission perm grant).data)
    ∧ (∀ grant, dataInv (p.remove_permissions grant).data)
    ∧ (∀ ext : Principal, firstMemberOf p.data = none →
        firstRoles p.data = none → dataInv (p.update_external ext).1.data) := by
  refine ⟨?_, ?_, ?_, ?_, ?_⟩
  · intro perm grant
    unfold Principal.add_permission
    rcases h : mapFirstPerms (upsertGrant perm grant) p.data with _ | d
    · have h2 := mapFirstPerms_none _ _ h
      have hp' : (p.data.map PrincipalData.disc).Nodup := hp
      show ((p.data ++ _).map PrincipalData.disc).Nodup
      simp [List.nodup_append, PrincipalData.disc, hp', h2]
    · show (d.map PrincipalData.disc).Nodup
      rw [mapFirstPerms_disc _ p.data d h]
      exact hp
  · intro gs
    unfold Principal.add_permissions
    rcases h : mapFirstPerms (· ++ gs) p.data with _ | d
    · have h2 := mapFirstPerms_none _ _ h
      have hp' : (p.data.map PrincipalData.disc).Nodup := hp
      show ((p.data ++ _).map PrincipalData.disc).Nodup
      simp [List.nodup_append, PrincipalData.disc, hp', h2]
    · show (d.map PrincipalData.disc).Nodup
      rw [mapFirstPerms_disc _ p.data d h]
      exact hp
  · intro perm grant
    unfold Principal.remove_permission
    exact mapFirstPerms_dataInv _ p hp (fun d => { p with data := d })
      (fun _ => rfl)
  · intro grant
    unfold Principal.remove_permissions
    exact mapFirstPerms_dataInv _ p hp (fun d => { p with data := d })
      (fun _ => rfl)
  · intro ext hm hr
    have h0 := firstMemberOf_none _ hm
    have h1 := firstRoles_none _ hr
    unfold Principal.update_external
    rcases hm2 : firstMemberOf ext.data with _ | lm <;>
      rcases hr2 : firstRoles ext.data with _ | lr <;>
        simp only [hm2, hr2] <;> (try split_ifs) <;>
          simp_all [dataInv, List.nodup_append, PrincipalData.disc]

/-- C3 witness: the amended statement instantiated at a principal carrying a
single `Permissions` entry and the external principal of the counterexample's
shape. -/
theorem c3_witness :
    dataInv ((Principal.mk 7 .individual "" none [] [] none none
        [.permissions [⟨1, true⟩]]).add_permission 2 true).data
    ∧ dataInv ((Principal.mk 7 .individual "" none [] [] none none
        [.permissions [⟨1, true⟩]]).add_permissions [⟨3, false⟩]).data
    ∧ dataInv ((Principal.mk 7 .individual "" none [] [] none none
        [.permissions [⟨1, true⟩]]).remove_permission 1 true).data
    ∧ dataInv ((Principal.mk 7 .individual "" none [] [] none none
        [.permissions [⟨1, true⟩]]).remove_permissions true).data
    ∧ dataInv ((Principal.mk 7 .individual "" none [] [] none none
        [.permissions [⟨1, true⟩]]).update_external
        (Principal.mk 1 .individual "" none [] [] none none
          [.memberOf [2]])).1.data :=
  ⟨(c3_amended _ (by decide)).1 2 true,
    (c3_amended _ (by decide)).2.1 [⟨3, false⟩],
    (c3_amended _ (by decide)).2.2.1 1 true,
    (c3_amended _ (by decide)).2.2.2.1 true,
    (c3_amended _ (by decide)).2.2.2.2 _ rfl rfl⟩

/-! ### C10: `PrincipalValue` deserialization from JSON arrays -/

lemma seqStringOrU64_ok (xs : List Json) (hok : xs.all elemOk = true) :
    ∃ vs, seqStringOrU64 xs = .ok vs
      ∧ (strParts vs).isEmpty = !xs.any isStrJson
      ∧ (intParts vs).isEmpty = !xs.any isNumJson := by
  induction xs with
  | nil => exact ⟨[], rfl, rfl, rfl⟩
  | cons j js ih =>
    rw [List.all_cons, Bool.and_eq_true] at hok
    obtain ⟨vs, h1, h2, h3⟩ := ih hok.2
    cases j with
    | str s =>
        have hs : s.utf8ByteSize ≤ MAX_STRING_LEN := by
          have := hok.1
          simpa [elemOk] using this
        refine ⟨.string s :: vs, ?_, ?_, ?_⟩
        · simp [seqStringOrU64, deStringOrU64, hs, h1]
        · simp [strParts, isStrJson]
        · simpa [intParts, isNumJson] using h3
    | num n =>
        refine ⟨.u64 n :: vs, ?_, ?_, ?_⟩
        · simp [seqStringOrU64, deStringOrU64, h1]
        · simpa [strParts, isStrJson] using h2
        · simp [intParts, isNumJson]
    | null => simp [elemOk] at hok
    | arr es => simp [elemOk] at hok
    | obj ms => simp [elemOk] at hok

/-- C10 counterexample: a JSON array containing an integer and a 513-byte
string — so "at least one string and at least one integer" — fails with
"string too long", not "invalid principal value": the per-element length
check fires before the mixed-shape check. -/
theorem c10_counterexample :
    512 < longStr.utf8ByteSize
    ∧ dePrincipalValue (.arr [.num 1, .str longStr]) =
        .error "string too long" := by
  constructor
  · decide
  · rfl

/-- C10 (amended): deserializing a `PrincipalValue` from a JSON array whose
elements all pass the element parser (strings of at most 512 bytes or
unsigned integers), with at least one string and at least one integer among
them, fails with "invalid principal value"; deserializing from an empty JSON
array succeeds with an empty string list. -/
theorem c10_amended (xs : List Json) (hok : xs.all elemOk = true)
    (hs : xs.any isStrJson = true) (hn : xs.any isNumJson = true) :
    dePrincipalValue (.arr xs) = .error "invalid principal value"
    ∧ dePrincipalValue (.arr []) = .ok (.stringList []) := by
  refine ⟨?_, rfl⟩
  obtain ⟨vs, h1, h2, h3⟩ := seqStringOrU64_ok xs hok
  rw [hs] at h2
  rw [hn] at h3
  simp [dePrincipalValue, h1, h2, h3]

/-- C10 witness: the amended statement at the array `["a", 1]`. -/
theorem c10_witness :
    dePrincipalValue (.arr [.str "a", .num 1]) =
        .error "invalid principal value"
    ∧ dePrincipalValue (.arr []) = .ok (.stringList []) :=
  c10_amended [.str "a", .num 1] (by decide) (by decide) (by decide)

/-! ### C2: the 512-byte string limit at the JSON boundary -/

/-- C2 counterexample: a `PrincipalSet` JSON object whose `secrets` field is
an array containing a 513-byte string deserializes successfully — the
`StringOrMany` sequence visitor collects elements as plain strings with no
length check — refuting "every string value ... as an element of an
array-valued field ... longer than 512 bytes causes deserialization to
fail". -/
theorem c2_counterexample :
    512 < longStr.utf8ByteSize
    ∧ (dePrincipalSet (.obj [("secrets", .arr [.str longStr])])).isOk = true :=
  ⟨by decide, by decide⟩

/-- C2 (amended): a string longer than 512 bytes is rejected with "string too
long" when it appears as the scalar value of `name`, of an optional-string
field such as `description`, of a list-valued field such as `emails`, or of
`quota`, and as an element of an array given for `quota`; but string elements
of an array given for a list-valued field (`StringOrMany`), and the value of
the ignored `id` key, are not length-checked and deserialize successfully. -/
theorem c2_amended (s : String) (h : MAX_STRING_LEN < s.utf8ByteSize) :
    dePrincipalSet (.obj [("name", .str s)]) = .error "string too long"
    ∧ dePrincipalSet (.obj [("description", .str s)]) = .error "string too long"
    ∧ dePrincipalSet (.obj [("emails", .str s)]) = .error "string too long"
    ∧ dePrincipalSet (.obj [("quota", .str s)]) = .error "string too long"
    ∧ dePrincipalSet (.obj [("quota", .arr [.str s])]) = .error "string too long"
    ∧ (dePrincipalSet (.obj [("emails", .arr [.str s])])).isOk = true
    ∧ (dePrincipalSet (.obj [("id", .str s)])).isOk = true := by
  have hnot : ¬ (s.utf8ByteSize ≤ MAX_STRING_LEN) := Nat.not_le.mpr h
  refine ⟨?_, ?_, ?_, ?_, ?_, ?_, ?_⟩ <;>
    simp [dePrincipalSet, dePrincipalSetLoop, deFieldStep, deStringOrMany,
      dePrincipalValue, seqString, seqStringOrU64, deStringOrU64, deString,
      insertField, Option.orElse, Except.isOk, Except.toBool, hnot,
      show PrincipalField.try_parse "name" = some .name from rfl,
      show PrincipalField.try_parse "description" = some .description from rfl,
      show PrincipalField.try_parse "emails" = some .emails from rfl,
      show PrincipalField.try_parse "quota" = some .quota from rfl,
      show PrincipalField.try_parse "id" = none from rfl]

/-- C2 witness: the amended statement at the 513-byte string. -/
theorem c2_witness :
    MAX_STRING_LEN < longStr.utf8ByteSize
    ∧ dePrincipalSet (.obj [("name", .str longStr)]) =
        .error "string too long" :=
  ⟨by decide, (c2_amended longStr (by decide)).1⟩

/-! ### C6: the search-index delta inverts -/

lemma mem_applyOp_set (I : List IndexKey) (k k0 : IndexKey) :
    k ∈ applyOp I (.setKey k0) ↔ k ∈ I ∨ k = k0 := by
  simp only [applyOp]
  split_ifs with hc
  · have h0 : k0 ∈ I := List.elem_iff.mp hc
    constructor
    · exact Or.inl
    · rintro (hk | rfl)
      · exact hk
      · exact h0
  · simp [List.mem_append]

lemma mem_applyOp_clear (I : List IndexKey) (k k0 : IndexKey) :
    k ∈ applyOp I (.clearKey k0) ↔ k ∈ I ∧ k ≠ k0 := by
  simp [applyOp, List.mem_filter, bne_iff_ne]

lemma applyOps_append (xs ys : List IndexOp) :
    ∀ idx, applyOps idx (xs ++ ys) = applyOps (applyOps idx xs) ys := by
  induction xs with
  | nil => intro idx; rfl
  | cons op ops ih =>
      intro idx
      simp only [List.cons_append, applyOps]
      exact ih _

lemma mem_applyOps_sets (ws : List String) (pid : Nat) :
    ∀ (I : List IndexKey) (k : IndexKey),
      k ∈ applyOps I (ws.map (fun w => .setKey ⟨w, pid⟩)) ↔
        k ∈ I ∨ k ∈ ws.map (fun w => IndexKey.mk w pid) := by
  induction ws with
  | nil => intro I k; simp [applyOps]
  | cons w ws ih =>
      intro I k
      simp only [List.map_cons, applyOps]
      rw [ih, mem_applyOp_set]
      simp only [List.mem_cons]
      tauto

lemma mem_applyOps_clears (ws : List String) (pid : Nat) :
    ∀ (I : List IndexKey) (k : IndexKey),
      k ∈ applyOps I (ws.map (fun w => .clearKey ⟨w, pid⟩)) ↔
        k ∈ I ∧ k ∉ ws.map (fun w => IndexKey.mk w pid) := by
  induction ws with
  | nil => intro I k; simp [applyOps]
  | cons w ws ih =>
      intro I k
      simp only [List.map_cons, applyOps]
      rw [ih, mem_applyOp_clear]
      simp only [List.mem_cons]
      tauto

/-- C6: the index entries of `build_search_index` with previous `A` and new
`B` are exactly inverted by the call with previous `B` and new `A` — every key
one call sets, the other clears, and vice versa; applying both batches in
sequence to an index whose keys for this principal are exactly `A`'s words is
a net no-op; and a word is mentioned by the batch at all if and only if its
tokenized presence differs between the two principals, so unchanged words
produce no entries. -/
theorem c6_search_index_delta (A B : Principal) (pid : Nat) (w : String) :
    (IndexOp.setKey ⟨w, pid⟩ ∈ build_search_index pid (some A) (some B) ↔
      IndexOp.clearKey ⟨w, pid⟩ ∈ build_search_index pid (some B) (some A))
    ∧ (IndexOp.clearKey ⟨w, pid⟩ ∈ build_search_index pid (some A) (some B) ↔
      IndexOp.setKey ⟨w, pid⟩ ∈ build_search_index pid (some B) (some A))
    ∧ (IndexKey.mk w pid ∈
        applyOps ((principal_words A).map (fun v => ⟨v, pid⟩))
          (build_search_index pid (some A) (some B) ++
            build_search_index pid (some B) (some A)) ↔
      IndexKey.mk w pid ∈ (principal_words A).map (fun v => IndexKey.mk v pid))
    ∧ ((IndexOp.setKey ⟨w, pid⟩ ∈ build_search_index pid (some A) (some B) ∨
        IndexOp.clearKey ⟨w, pid⟩ ∈ build_search_index pid (some A) (some B)) ↔
      ¬ (w ∈ principal_words A ↔ w ∈ principal_words B)) := by
  refine ⟨?_, ?_, ?_, ?_⟩
  · simp only [build_search_index, List.mem_append, List.mem_map,
      List.mem_filter]
    simp [List.elem_iff]
  · simp only [build_search_index, List.mem_append, List.mem_map,
      List.mem_filter]
    simp [List.elem_iff]
  · simp only [build_search_index]
    rw [applyOps_append, applyOps_append, applyOps_append,
      mem_applyOps_clears, mem_applyOps_sets, mem_applyOps_clears,
      mem_applyOps_sets]
    simp only [List.mem_map, List.mem_filter, Bool.not_eq_true',
      IndexKey.mk.injEq]
    by_cases hA : w ∈ principal_words A <;> by_cases hB : w ∈ principal_words B <;>
      simp [List.elem_iff, hA, hB]
  · simp only [build_search_index, List.mem_append, List.mem_map,
      List.mem_filter]
    by_cases hA : w ∈ principal_words A <;> by_cases hB : w ∈ principal_words B <;>
      simp [List.elem_iff, hA, hB]

end Stalwart
